import Mathlib

/-!
Verification of the bulletin extraction and incremental-synchronization
pipeline of the Visa-Bulletin-Tracker repository (`src/tracker_app.py`).

The embedding models calendar dates as triples of naturals, raw HTML tables
as grids of strings (the spec's RawCellGrid: header row followed by body
rows), and the external collaborators (HTTP fetch, HTML table extraction,
the permissive general date parser of the pandas library) as explicit
parameters or small modelled functions, as the spec directs (they are
outside the repository).
-/

namespace VisaTracker

/-- A calendar date, as produced by the datetime values in the source. -/
structure Date where
  year : Nat
  month : Nat
  day : Nat
deriving DecidableEq, Repr

/-- Injective-on-valid-dates numeric key giving the chronological order of
`Date` values (months are at most 12 and days at most 31, so the key order
agrees with real calendar order on valid dates). -/
def date_key (d : Date) : Nat :=
  d.year * 512 + d.month * 32 + d.day

/-- Chronological comparison of dates, modelling `<=` on datetime values. -/
def date_le (a b : Date) : Prop := date_key a ≤ date_key b

instance : DecidableRel date_le := fun a b => Nat.decLe _ _

/-- Strict chronological comparison of dates. -/
def date_lt (a b : Date) : Prop := date_key a < date_key b

instance : DecidableRel date_lt := fun a b => Nat.decLt _ _

/-- The tuple `MONTHS` of `tracker_app.py` (line 15). -/
def MONTHS : List String :=
  ["january", "february", "march", "april", "may", "june", "july", "august",
   "september", "october", "november", "december"]

/-- Model of the Python `str.lower()` builtin on the ASCII month names
involved (character-wise lowering). -/
def str_lower (s : String) : String := String.mk (s.data.map Char.toLower)

/-- Model of the Python `str.upper()` builtin on the ASCII cell text
involved (character-wise raising). -/
def str_upper (s : String) : String := String.mk (s.data.map Char.toUpper)

/-- An ASCII whitespace character, as stripped by `str.strip()`. -/
def is_ws (c : Char) : Bool := c == ' ' || c == '\t' || c == '\n' || c == '\r'

/-- Model of the Python `str.strip()` builtin: drop leading and trailing
whitespace. -/
def str_trim (s : String) : String :=
  String.mk (((s.data.dropWhile is_ws).reverse.dropWhile is_ws).reverse)

/-- The URL template of `get_bulletin_url` (line 56): the f-string embedding
the fiscal year, the lowercase month name and the calendar year. -/
def mk_url (fiscal_year : Nat) (month_lower : String) (year : Nat) : String :=
  "https://travel.state.gov/content/travel/en/legal/visa-law0/visa-bulletin/"
    ++ Nat.repr fiscal_year ++ "/visa-bulletin-for-" ++ month_lower ++ "-"
    ++ Nat.repr year ++ ".html"

/-- `get_bulletin_url` (lines 53-56). `MONTHS.index` raises `ValueError` on
an unknown month name, modelled as `none`; `month_idx` is the 1-based index. -/
def get_bulletin_url (month_name : String) (year : Nat) : Option String :=
  match List.findIdx? (fun m => m == (str_lower month_name)) MONTHS with
  | none => none
  | some i =>
    let month_idx := i + 1
    let fiscal_year := if month_idx ≥ 10 then year + 1 else year
    some (mk_url fiscal_year (str_lower month_name) year)

/-- Gregorian leap-year rule, as used by the datetime library. -/
def is_leap (y : Nat) : Prop := y % 4 = 0 ∧ (y % 100 ≠ 0 ∨ y % 400 = 0)

instance (y : Nat) : Decidable (is_leap y) := by
  unfold is_leap; infer_instance

/-- Number of days of a month, as validated by the strict datetime parser. -/
def days_in_month (y m : Nat) : Nat :=
  if m = 2 then (if is_leap y then 29 else 28)
  else if m = 4 ∨ m = 6 ∨ m = 9 ∨ m = 11 then 30
  else 31

/-- The three-letter month abbreviations matched by the `%b` directive on an
upper-cased input. -/
def month_abbrevs : List String :=
  ["JAN", "FEB", "MAR", "APR", "MAY", "JUN", "JUL", "AUG", "SEP", "OCT",
   "NOV", "DEC"]

/-- Numeric value of a decimal digit character. -/
def digit_val (c : Char) : Nat := c.toNat - 48

/-- The strict parse `pd.to_datetime(date_str, format=%d%b%y)` of line 46:
exactly two digits of day, a three-letter month abbreviation (the input is
already upper-cased) and two digits of year, with the pandas two-digit-year
pivot (0-68 maps to 2000-2068, 69-99 to 1969-1999) and day-of-month
validation; any mismatch raises in the source, modelled as `none`. -/
def strict_parse_ddmmmyy (s : String) : Option Date :=
  match s.data with
  | [d1, d2, m1, m2, m3, y1, y2] =>
    if d1.isDigit && d2.isDigit && y1.isDigit && y2.isDigit then
      match List.findIdx? (fun a => a == String.mk [m1, m2, m3]) month_abbrevs with
      | some mi =>
        let day := digit_val d1 * 10 + digit_val d2
        let yy := digit_val y1 * 10 + digit_val y2
        let year := if yy ≤ 68 then 2000 + yy else 1900 + yy
        if 1 ≤ day ∧ day ≤ days_in_month year (mi + 1) then
          some ⟨year, mi + 1, day⟩
        else none
      | none => none
    else none
  | _ => none

/-- Modelled from the spec: the fallback permissive general date parse of
line 49 (`pd.to_datetime(date_str)`), an external library collaborator not
part of this repository. Modelled as accepting an ISO `YYYY-MM-DD` value and
failing on anything else; a failed parse raises in the source and the caller
catches it, so failure is modelled as `none`. -/
def pd_to_datetime_general (s : String) : Option Date :=
  match s.data with
  | [y1, y2, y3, y4, '-', m1, m2, '-', d1, d2] =>
    if y1.isDigit && y2.isDigit && y3.isDigit && y4.isDigit && m1.isDigit
        && m2.isDigit && d1.isDigit && d2.isDigit then
      let year := digit_val y1 * 1000 + digit_val y2 * 100 + digit_val y3 * 10
        + digit_val y4
      let month := digit_val m1 * 10 + digit_val m2
      let day := digit_val d1 * 10 + digit_val d2
      if 1 ≤ month ∧ month ≤ 12 ∧ 1 ≤ day ∧ day ≤ days_in_month year month then
        some ⟨year, month, day⟩
      else none
    else none
  | _ => none

/-- `parse_priority_date` (lines 35-51), the spec's DateNormalizer, with the
external permissive fallback parser abstracted as `g` (instantiated with
`pd_to_datetime_general` in the pipeline). A `None`/`NaN` input is modelled
as `none`; the `not date_str` falsiness test on a string input is the test
against the empty string; the value is then trimmed, upper-cased, checked
against the synonym sets, then strict-parsed, then fallback-parsed; every
failing branch returns `NaT`, modelled as `none`. -/
def parse_priority_date (g : String → Option Date) (date_str : Option String)
    (bulletin_date : Date) : Option Date :=
  match date_str with
  | none => none
  | some s =>
    if s = "" then none
    else
      let u := str_upper (str_trim s)
      if u = "C" ∨ u = "CURRENT" then some bulletin_date
      else if u = "U" ∨ u = "UNAUTHORIZED" ∨ u = "UNAVAILABLE" then none
      else
        match strict_parse_ddmmmyy u with
        | some d => some d
        | none => g u

/-- A regex word character (`\w` of the `re` module): letter, digit or
underscore (the cells involved are ASCII). -/
def is_word_char (c : Char) : Bool := c.isAlphanum || c == '_'

/-- The pattern occurs verbatim at offset `i` of `s`
(models a raw regex match of a plain-text pattern at one position). -/
def occurs_at (pat s : List Char) (i : Nat) : Bool :=
  (s.drop i).take pat.length == pat

/-- The occurrence of `pat` at offset `i` has a word character immediately
before or immediately after it (so it is part of a larger token). -/
def flanked_by_word_char (pat s : List Char) (i : Nat) : Bool :=
  (match (s.take i).getLast? with
   | some c => is_word_char c
   | none => false) ||
  (match (s.drop (i + pat.length)).head? with
   | some c => is_word_char c
   | none => false)

/-- A match of `pat` at offset `i` with both regex word boundaries, as the
anchors `\b...\b` require: the pattern occurs at `i` and the adjacent
characters (when they exist) are not word characters. -/
def wb_match_at (pat s : List Char) (i : Nat) : Bool :=
  occurs_at pat s i &&
  (match (s.take i).getLast? with
   | some c => !is_word_char c
   | none => true) &&
  (match (s.drop (i + pat.length)).head? with
   | some c => !is_word_char c
   | none => true)

/-- `re.search` of a word-boundary-anchored plain pattern: some offset of the
string carries a boundary match. -/
def word_search (pat s : List Char) : Bool :=
  (List.range (s.length + 1)).any (fun i => wb_match_at pat s i)

/-- The row predicate of line 79: `re.search` of `\b2ND\b` on the
upper-cased cell text. -/
def row_pred_2nd (cell : String) : Bool :=
  word_search ['2', 'N', 'D'] (str_upper cell).data

/-- The row predicate of line 81: `re.search` of `\b3RD\b` on the
upper-cased cell text. -/
def row_pred_3rd (cell : String) : Bool :=
  word_search ['3', 'R', 'D'] (str_upper cell).data

/-- Python substring containment (`needle in hay`). -/
def contains_sub (needle hay : List Char) : Bool :=
  (List.range (hay.length + 1)).any
    (fun i => (hay.drop i).take needle.length == needle)

/-- The column test of line 67: `'INDIA' in str(cell).upper()` —
plain substring containment, not a token match. -/
def cell_has_india (cell : String) : Bool :=
  contains_sub ['I', 'N', 'D', 'I', 'A'] (str_upper cell).data

/-- The inner loop of lines 66-69: `for j, cell in enumerate(row)` breaking
at the first cell containing INDIA, yielding its index. -/
def row_india_idx : Nat → List String → Option Nat
  | _, [] => none
  | j, c :: cs => if cell_has_india c then some j else row_india_idx (j + 1) cs

/-- The outer loop of lines 64-71: scan rows in order; the first row holding
an INDIA cell fixes `india_col_idx` to that cell's column index and breaks. -/
def india_col_idx : List (List String) → Option Nat
  | [] => none
  | row :: rest =>
    match row_india_idx 0 row with
    | some j => some j
    | none => india_col_idx rest

/-- The loop of lines 76-84: scan rows carrying the two optional indices;
a row containing a `\b2ND\b` cell fixes `second_row_idx` if still unset, a
row containing a `\b3RD\b` cell fixes `third_row_idx` if still unset (the
per-cell inner loop assigns the same row index `i` whichever cell matched,
so a row-level test is equivalent); the outer loop breaks once both are
set. -/
def find_row_idxs : Nat → Option Nat → Option Nat → List (List String) →
    Option Nat × Option Nat
  | _, s, t, [] => (s, t)
  | i, s, t, row :: rest =>
    let s2 := if s.isNone && row.any row_pred_2nd then some i else s
    let t2 := if t.isNone && row.any row_pred_3rd then some i else t
    if s2.isSome && t2.isSome then (s2, t2)
    else find_row_idxs (i + 1) s2 t2 rest

/-- `extract_india_dates` (lines 59-96), the spec's TableCellLocator. The
grid argument is `raw_data` of lines 60-62: the header row followed by the
body rows (the spec's RawCellGrid), each cell already a string. The final
loop of lines 87-94 reads the cell at the located row and the located
column; a located row shorter than the column index leaves the result
unset. -/
def extract_india_dates (grid : List (List String)) :
    Option String × Option String :=
  let col := india_col_idx grid
  let rows := find_row_idxs 0 none none grid
  match col with
  | none => (none, none)
  | some j =>
    let eb2 := rows.1.bind (fun i => (grid[i]?).bind (fun row => row[j]?))
    let eb3 := rows.2.bind (fun i => (grid[i]?).bind (fun row => row[j]?))
    (eb2, eb3)

/-- The four per-month results of `fetch_bulletin_dates`
(EB-2 final action date, EB-2 date of filing, EB-3 final action date,
EB-3 date of filing), each `NaT` or a concrete date. -/
structure Quad where
  eb2_fad : Option Date
  eb2_dof : Option Date
  eb3_fad : Option Date
  eb3_dof : Option Date
deriving DecidableEq, Repr

/-- The all-`NaT` quadruple returned on every failure path. -/
def all_absent : Quad := ⟨none, none, none, none⟩

/-- The Python truthiness filter of lines 115-116 (`if eb2_d:`): a located
value is collected only when truthy — for string cells, only when it is
non-empty (`None`, i.e. not located, and the empty string are both falsy). -/
def truthy_cell : Option String → Option String
  | none => none
  | some s => if s = "" then none else some s

/-- One step of the assignment loops of lines 121-127: position 0 of the
enumeration sets the final-action slot, position 1 sets the filing slot,
later positions are ignored. -/
def assign_step (g : String → Option Date) (bd : Date)
    (acc : Option Date × Option Date) (p : Nat × String) :
    Option Date × Option Date :=
  if p.1 = 0 then (parse_priority_date g (some p.2) bd, acc.2)
  else if p.1 = 1 then (acc.1, parse_priority_date g (some p.2) bd)
  else acc

/-- The `for idx, date_val in enumerate(dates_found)` loop of lines 121-127,
starting from the all-`NaT` pair. -/
def assign_two (g : String → Option Date) (bd : Date) (found : List String) :
    Option Date × Option Date :=
  found.enum.foldl (assign_step g bd) (none, none)

/-- The collection loop of lines 113-116 for the EB-2 slot: run the
extractor on every grid in order, keeping the truthy located values. -/
def dates_found_eb2 (tables : List (List (List String))) : List String :=
  tables.filterMap (fun t => truthy_cell (extract_india_dates t).1)

/-- The collection loop of lines 113-116 for the EB-3 slot. -/
def dates_found_eb3 (tables : List (List (List String))) : List String :=
  tables.filterMap (fun t => truthy_cell (extract_india_dates t).2)

/-- The pure core of `fetch_bulletin_dates` (lines 110-129) after a
successful fetch and table split: collect located values per category
across the grids, then normalize the first into the final-action date and
the second into the filing date, with `bd` the bulletin's month start. -/
def fetch_from_tables (g : String → Option Date)
    (tables : List (List (List String))) (bd : Date) : Quad :=
  let eb2 := assign_two g bd (dates_found_eb2 tables)
  let eb3 := assign_two g bd (dates_found_eb3 tables)
  ⟨eb2.1, eb2.2, eb3.1, eb3.2⟩

/-- Outcome of the external fetch-and-table-split step inside the `try` of
lines 102-108: either some exception was raised during the HTTP request,
the HTML parse or the table extraction (`exn`), or a response with a status
code and its extracted grids was obtained. -/
inductive FetchResult where
  | exn : FetchResult
  | resp (status : Nat) (tables : List (List (List String))) : FetchResult

/-- `fetch_bulletin_dates` (lines 98-131), the spec's BulletinExtractor,
over an explicit fetch outcome `r`. The URL resolution of line 99 happens
outside the `try`, so an unknown month name propagates (`none`); inside the
`try`, a non-200 status returns the all-`NaT` quadruple, an exception is
caught by line 130 and returns the all-`NaT` quadruple, and otherwise the
grids are processed with the bulletin month start
(`pd.to_datetime` of `01 month year`, line 118) as reference date. -/
def fetch_bulletin_dates (g : String → Option Date) (r : FetchResult)
    (month_name : String) (year : Nat) : Option Quad :=
  match List.findIdx? (fun m => m == (str_lower month_name)) MONTHS with
  | none => none
  | some i =>
    some (match r with
      | .exn => all_absent
      | .resp status tables =>
        if status ≠ 200 then all_absent
        else fetch_from_tables g tables ⟨year, i + 1, 1⟩)

/-- One stored record of the persisted series: the columns of the data file
(lines 142 and 175-181). -/
structure Row where
  bulletin_date : Date
  eb2_filing : Option Date
  eb2_fad : Option Date
  eb3_filing : Option Date
  eb3_fad : Option Date
deriving DecidableEq, Repr

/-- The dict appended at lines 175-181: the month key, the filing columns
from the `dof` results and the FAD columns from the `fad` results. -/
def mk_row (d : Date) (q : Quad) : Row :=
  ⟨d, q.eb2_dof, q.eb2_fad, q.eb3_dof, q.eb3_fad⟩

/-- The `Bulletin_Date` keys of a list of records. -/
def keys (rows : List Row) : List Date := rows.map (fun r => r.bulletin_date)

/-- Record comparison by bulletin date, the sort key of line 189. -/
def row_le (a b : Row) : Prop := date_le a.bulletin_date b.bulletin_date

instance : DecidableRel row_le := fun a b => Nat.decLe _ _

instance : IsTotal Row row_le := ⟨fun a b => Nat.le_total _ _⟩

instance : IsTrans Row row_le := ⟨fun _ _ _ h1 h2 => Nat.le_trans h1 h2⟩

/-- Zero-based month counter: the number of months from year 0 to the first
day of the month of `d`. -/
def month_idx (d : Date) : Nat := d.year * 12 + (d.month - 1)

/-- The month start with the given month counter. -/
def date_of_idx (i : Nat) : Date := ⟨i / 12, i % 12 + 1, 1⟩

/-- Month counter of the epoch `datetime(2017, 1, 1)` of line 145. -/
def epoch_idx : Nat := 2017 * 12

/-- `current_month_start` of line 149: the first day of the month of
`today`. -/
def current_month_start (today : Date) : Date := ⟨today.year, today.month, 1⟩

/-- `dates_to_check` of lines 144-151: `today + DateOffset(months=1)` moves
to the next calendar month (clamping only the day, which `target_date`
then discards by taking day 1), and `pd.date_range(start, target, freq=MS)`
enumerates every month start from the epoch through the first day of that
next month, inclusive. -/
def dates_to_check (today : Date) : List Date :=
  (List.range (month_idx today + 2 - epoch_idx)).map
    (fun k => date_of_idx (epoch_idx + k))

/-- The test of line 169: `pd.isna(eb2_fad) and pd.isna(eb3_fad)` — only
the two final-action results are consulted. -/
def both_fad_absent (q : Quad) : Bool := q.eb2_fad.isNone && q.eb3_fad.isNone

/-- The missing-month diff of lines 153-156: the expected dates not present
among the stored `Bulletin_Date` values (an empty store has no values, so
its test is subsumed by the membership test). -/
def missing_dates (df : List Row) (dates : List Date) : List Date :=
  dates.filter (fun d => !(df.any (fun r => r.bulletin_date == d)))

/-- The scraping loop of lines 163-184 over the missing months, with `f`
the per-month extraction outcome (line 167 calls `fetch_bulletin_dates` on
the month's name and year, a function of the month `d` and of the external
world, which `f` stands for). A month whose two final-action results are
`NaT` is dropped: the loop breaks when it is the current month or later
(line 171) and skips it otherwise (line 173); any other month is appended
as a new record. -/
def sync_loop (f : Date → Quad) (cur : Date) : List Date → List Row
  | [] => []
  | d :: rest =>
    let q := f d
    if both_fad_absent q then
      if date_le cur d then [] else sync_loop f cur rest
    else mk_row d q :: sync_loop f cur rest

/-- `init_or_update_db` (lines 133-199), the spec's SyncEngine, over the
stored series `df` and the extraction outcomes `f`. When the loop produced
no new record the store is left untouched and no refresh is signalled;
otherwise the new records are concatenated, the result is sorted ascending
by bulletin date (line 189, modelled by insertion sort on the date key) and
persisted, and a refresh is signalled (`st.rerun`, line 193). The returned
pair is the resulting series and the refresh signal. -/
def init_or_update_db (f : Date → Quad) (today : Date) (df : List Row) :
    List Row × Bool :=
  let new_rows := sync_loop f (current_month_start today)
    (missing_dates df (dates_to_check today))
  if new_rows = [] then (df, false)
  else (List.insertionSort row_le (df ++ new_rows), true)

/-- A nonempty pattern can only occur at an offset inside the string. -/
theorem occurs_at_lt {pat s : List Char} {i : Nat} (hp : pat ≠ [])
    (h : occurs_at pat s i = true) : i < s.length := by
  by_contra hge
  have hnil : s.drop i = [] := List.drop_eq_nil_of_le (by omega)
  unfold occurs_at at h
  rw [hnil, List.take_nil, beq_iff_eq] at h
  exact hp h.symm

/-- C4: for every canonical month name (case-insensitive) and calendar
year, the resolved URL embeds fiscal year = calendar year + 1 exactly when
the month's 1-based index is at least 10, else the calendar year, together
with the lowercase month name and the calendar year; in particular October
2024 uses fiscal year 2025 while September 2024 and January 2024 use
fiscal year 2024. -/
theorem c4_fiscal_year_rule :
    (∀ (month_name : String) (year i : Nat),
        List.findIdx? (fun m => m == (str_lower month_name)) MONTHS = some i →
        get_bulletin_url month_name year =
          some (mk_url (if i + 1 ≥ 10 then year + 1 else year)
            (str_lower month_name) year)) ∧
    get_bulletin_url "october" 2024 = some (mk_url 2025 "october" 2024) ∧
    get_bulletin_url "september" 2024 = some (mk_url 2024 "september" 2024) ∧
    get_bulletin_url "january" 2024 = some (mk_url 2024 "january" 2024) := by
  refine ⟨?_, rfl, rfl, rfl⟩
  intro month_name year i h
  simp [get_bulletin_url, h]

/-- Witness for C4 at the month name "october" and year 2024. -/
theorem c4_fiscal_year_rule_witness :
    List.findIdx? (fun m => m == (str_lower "october")) MONTHS =
      some 9 ∧
    get_bulletin_url "october" 2024 =
      some (mk_url (if 9 + 1 ≥ 10 then 2024 + 1 else 2024)
        (str_lower "october") 2024) :=
  ⟨rfl, c4_fiscal_year_rule.1 "october" 2024 9 rfl⟩

/-- C3: normalization returns the reference month start for every value
whose trimmed upper-cased form is "C" or "CURRENT", Absent for every value
whose trimmed upper-cased form is "U", "UNAUTHORIZED" or "UNAVAILABLE",
Absent for a null or empty value, the date 2013-12-01 for "01DEC13", and
Absent for unparseable garbage such as "XYZ" (the external permissive
fallback parser `g` fails there) — and normalization is a total function,
so it never raises. -/
theorem c3_normalizer (g : String → Option Date) (ref : Date)
    (hg : g "XYZ" = none) :
    (∀ s : String, str_upper (str_trim s) = "C" ∨ str_upper (str_trim s) = "CURRENT" →
        parse_priority_date g (some s) ref = some ref) ∧
    (∀ s : String, str_upper (str_trim s) = "U" ∨ str_upper (str_trim s) = "UNAUTHORIZED" ∨
        str_upper (str_trim s) = "UNAVAILABLE" →
        parse_priority_date g (some s) ref = none) ∧
    parse_priority_date g none ref = none ∧
    parse_priority_date g (some "") ref = none ∧
    parse_priority_date g (some "01DEC13") ref = some ⟨2013, 12, 1⟩ ∧
    parse_priority_date g (some "XYZ") ref = none := by
  refine ⟨?_, ?_, rfl, rfl, rfl, ?_⟩
  · intro s hs
    by_cases hemp : s = ""
    · rw [hemp] at hs
      rcases hs with h | h <;> exact absurd h (by decide)
    · rcases hs with h | h <;> simp [parse_priority_date, hemp, h]
  · intro s hs
    by_cases hemp : s = ""
    · rw [hemp] at hs
      rcases hs with h | h | h <;> exact absurd h (by decide)
    · rcases hs with h | h | h <;> simp [parse_priority_date, hemp, h]
  · show g (str_upper (str_trim "XYZ")) = none
    exact hg

/-- Witness for C3 at the permissive parser model and concrete inputs. -/
theorem c3_normalizer_witness :
    parse_priority_date pd_to_datetime_general (some " current ")
        ⟨2024, 6, 1⟩ = some ⟨2024, 6, 1⟩ ∧
    parse_priority_date pd_to_datetime_general (some "U") ⟨2024, 6, 1⟩ =
      none ∧
    parse_priority_date pd_to_datetime_general none ⟨2024, 6, 1⟩ = none ∧
    parse_priority_date pd_to_datetime_general (some "") ⟨2024, 6, 1⟩ =
      none ∧
    parse_priority_date pd_to_datetime_general (some "01DEC13")
        ⟨2024, 6, 1⟩ = some ⟨2013, 12, 1⟩ ∧
    parse_priority_date pd_to_datetime_general (some "XYZ") ⟨2024, 6, 1⟩ =
      none := by
  have h := c3_normalizer pd_to_datetime_general ⟨2024, 6, 1⟩ (by decide)
  exact ⟨h.1 " current " (by decide), h.2.1 "U" (by decide), h.2.2.1,
    h.2.2.2.1, h.2.2.2.2.1, h.2.2.2.2.2⟩

/-- C5: on the grid with header row [Category, CHINA, INDIA] and body row
[2nd, 01JAN10, 05FEB12], the locator returns 05FEB12 for the EB-2 slot;
and for every cell whose every occurrence of "2ND" is flanked by a word
character (so "2ND" appears only inside a larger token, as in "22ND"), the
word-boundary row predicate does not hold. -/
theorem c5_locator :
    (extract_india_dates
        [["Category", "CHINA", "INDIA"],
         ["2nd", "01JAN10", "05FEB12"]]).1 = some "05FEB12" ∧
    ∀ cell : String,
      (∀ i, i < (str_upper cell).data.length →
        occurs_at ['2', 'N', 'D'] (str_upper cell).data i = true →
        flanked_by_word_char ['2', 'N', 'D'] (str_upper cell).data i = true) →
      row_pred_2nd cell = false := by
  refine ⟨by decide, ?_⟩
  intro cell h
  by_contra hb
  rw [Bool.not_eq_false, row_pred_2nd, word_search, List.any_eq_true] at hb
  obtain ⟨i, _, hwb⟩ := hb
  have hoc : occurs_at ['2', 'N', 'D'] (str_upper cell).data i = true := by
    unfold wb_match_at at hwb
    exact (Bool.and_eq_true_iff.1
      (Bool.and_eq_true_iff.1 hwb).1).1
  have hlt : i < (str_upper cell).data.length := occurs_at_lt (by decide) hoc
  have hfl := h i hlt hoc
  unfold wb_match_at at hwb
  unfold flanked_by_word_char at hfl
  rcases h1 : ((str_upper cell).data.take i).getLast? with _ | c <;>
    rcases h2 : ((str_upper cell).data.drop (i + 3)).head? with _ | c2 <;>
      rw [h1] at hwb hfl <;>
      simp only [show (['2', 'N', 'D'] : List Char).length = 3 from rfl]
        at hwb hfl <;>
      rw [h2] at hwb hfl <;> simp_all

/-- Witness for C5 at the cell "22ND", whose only occurrence of "2ND" sits
inside the larger token "22ND". -/
theorem c5_locator_witness : row_pred_2nd "22ND" = false :=
  c5_locator.2 "22ND" (by decide)

/-- C6: for every valid canonical month name and year, the extractor
returns a result rather than raising, and both a fetch/parse exception and
a non-200 response yield the all-Absent quadruple. -/
theorem c6_extractor_absorbs_failures (g : String → Option Date)
    (r : FetchResult) (month_name : String) (year i : Nat)
    (h : List.findIdx? (fun m => m == (str_lower month_name)) MONTHS =
      some i) :
    ∃ q : Quad, fetch_bulletin_dates g r month_name year = some q ∧
      (r = .exn → q = all_absent) ∧
      (∀ status tables, r = .resp status tables → status ≠ 200 →
        q = all_absent) := by
  cases r with
  | exn =>
    refine ⟨all_absent, ?_, fun _ => rfl, ?_⟩
    · simp [fetch_bulletin_dates, h]
    · intro status tables hr
      cases hr
  | resp status tables =>
    by_cases h200 : status = 200
    · refine ⟨fetch_from_tables g tables ⟨year, i + 1, 1⟩, ?_, ?_, ?_⟩
      · simp [fetch_bulletin_dates, h, h200]
      · intro hr; cases hr
      · intro st ts hr hne
        cases hr
        exact absurd h200 hne
    · refine ⟨all_absent, ?_, ?_, fun _ _ _ _ => rfl⟩
      · simp [fetch_bulletin_dates, h, h200]
      · intro hr; cases hr

/-- Witness for C6 at the month "march", year 2020 and an exception
outcome. -/
theorem c6_extractor_absorbs_failures_witness :
    ∃ q : Quad,
      fetch_bulletin_dates pd_to_datetime_general .exn "march" 2020 =
        some q ∧
      (FetchResult.exn = .exn → q = all_absent) ∧
      (∀ status tables, FetchResult.exn = .resp status tables →
        status ≠ 200 → q = all_absent) :=
  c6_extractor_absorbs_failures pd_to_datetime_general .exn "march" 2020 2
    rfl

/-- Enumerate the cells of one row with their column indices, starting at
column `j` (the `enumerate` of the Python inner loops). -/
def enum_row : Nat → List String → List (Nat × String)
  | _, [] => []
  | j, c :: cs => (j, c) :: enum_row (j + 1) cs

/-- Column index of the first INDIA-containing cell of a flattened
row-major scan list. -/
def find_first_india : List (Nat × String) → Option Nat
  | [] => none
  | (j, c) :: rest =>
    if cell_has_india c then some j else find_first_india rest

/-- The row-major reading of the column search: flatten the grid into one
row-major list of (column index, cell) pairs and take the column of the
first cell containing INDIA as a substring of its upper-cased text. -/
def india_col_spec (grid : List (List String)) : Option Nat :=
  find_first_india (List.flatten (grid.map (enum_row 0)))

theorem find_first_india_append (l1 l2 : List (Nat × String)) :
    find_first_india (l1 ++ l2) =
      match find_first_india l1 with
      | some j => some j
      | none => find_first_india l2 := by
  induction l1 with
  | nil => rfl
  | cons p rest ih =>
    obtain ⟨j, c⟩ := p
    by_cases h : cell_has_india c = true
    · simp [find_first_india, h]
    · simp only [Bool.not_eq_true] at h
      simp [find_first_india, h, ih]

theorem find_first_india_enum_row (row : List String) :
    ∀ j : Nat, find_first_india (enum_row j row) = row_india_idx j row := by
  induction row with
  | nil => intro j; rfl
  | cons c cs ih =>
    intro j
    by_cases h : cell_has_india c = true
    · simp [enum_row, find_first_india, row_india_idx, h]
    · simp only [Bool.not_eq_true] at h
      simp [enum_row, find_first_india, row_india_idx, h, ih]

/-- C10: the country column index is fixed by the first cell in row-major
scan order (rows in order, cells left-to-right) whose upper-cased text
contains "INDIA" as a substring anywhere — not as a standalone token: a
cell such as "INDIANA" or "CHINA-INDIA" also fixes the column for the
whole grid. -/
theorem c10_india_column_substring_scan :
    (∀ grid : List (List String), india_col_idx grid = india_col_spec grid) ∧
    india_col_idx [["Category", "INDIANA"], ["2nd", "x"]] = some 1 ∧
    india_col_idx [["num", "CHINA-INDIA"], ["2nd", "x"]] = some 1 ∧
    cell_has_india "INDIANA" = true ∧
    cell_has_india "CHINA-INDIA" = true := by
  refine ⟨?_, by decide, by decide, by decide, by decide⟩
  intro grid
  induction grid with
  | nil => rfl
  | cons row rest ih =>
    unfold india_col_idx india_col_spec
    rw [List.map_cons, List.flatten_cons, find_first_india_append,
      find_first_india_enum_row]
    cases row_india_idx 0 row with
    | none => exact ih
    | some j => rfl

/-- The claim's reading of the collection step: every located (non-NotFound)
raw value across grids for the EB-2 slot, in grid order, with no further
filtering. Stated from the spec's words to be compared with the source's
`dates_found_eb2`. -/
def dates_located_eb2_spec (tables : List (List (List String))) :
    List String :=
  tables.filterMap (fun t => (extract_india_dates t).1)

/-- Value of an assignment slot: `NaT` when the position does not exist in
the collected list, else the normalized value at that position. -/
def opt_parse (g : String → Option Date) (bd : Date) :
    Option String → Option Date
  | none => none
  | some v => parse_priority_date g (some v) bd

/-- Positions at index two or later leave the assignment accumulator
unchanged. -/
theorem assign_step_foldl_high (g : String → Option Date) (bd : Date) :
    ∀ (l : List String) (n : Nat) (acc : Option Date × Option Date),
      2 ≤ n → (l.enumFrom n).foldl (assign_step g bd) acc = acc := by
  intro l
  induction l with
  | nil => intro n acc _; rfl
  | cons a l ih =>
    intro n acc hn
    show ((n, a) :: l.enumFrom (n + 1)).foldl (assign_step g bd) acc = acc
    rw [List.foldl_cons]
    have hstep : assign_step g bd acc (n, a) = acc := by
      unfold assign_step
      rw [if_neg (by omega), if_neg (by omega)]
    rw [hstep]
    exact ih (n + 1) acc (by omega)

/-- The enumerate-and-assign loop fills the final-action slot from position
zero and the filing slot from position one of the collected list. -/
theorem assign_two_eq (g : String → Option Date) (bd : Date)
    (found : List String) :
    assign_two g bd found =
      (opt_parse g bd found[0]?, opt_parse g bd found[1]?) := by
  match found with
  | [] => rfl
  | [a] => rfl
  | a :: b :: rest =>
    show ((0, a) :: (1, b) :: rest.enumFrom 2).foldl (assign_step g bd)
      (none, none) = _
    rw [List.foldl_cons, List.foldl_cons,
      assign_step_foldl_high g bd rest 2 _ (by omega)]
    simp [assign_step, opt_parse]

/-- C2 counterexample: with a first grid whose located EB-2 cell is the
empty string and a second whose located cell is "01JAN10", the first
located (non-NotFound) raw value is the empty string and its normalization
is Absent, yet the computed final_action_date is the concrete date
2010-01-01 taken from the second grid — the truthiness filter of
`if eb2_d:` drops the located empty cell, so the first located value is
not the one normalized as final_action_date. -/
theorem c2_counterexample :
    dates_located_eb2_spec
        [[["Category", "INDIA"], ["2nd", ""]],
         [["Category", "INDIA"], ["2nd", "01JAN10"]]] = ["", "01JAN10"] ∧
    opt_parse pd_to_datetime_general ⟨2024, 4, 1⟩
        ((dates_located_eb2_spec
          [[["Category", "INDIA"], ["2nd", ""]],
           [["Category", "INDIA"], ["2nd", "01JAN10"]]])[0]?) = none ∧
    (fetch_from_tables pd_to_datetime_general
        [[["Category", "INDIA"], ["2nd", ""]],
         [["Category", "INDIA"], ["2nd", "01JAN10"]]] ⟨2024, 4, 1⟩).eb2_fad =
      some ⟨2010, 1, 1⟩ := by
  refine ⟨by decide, by decide, ?_⟩
  decide

/-- C2 amended: for every fetched bulletin, the extractor collects, in grid
order, every located raw cell value that is truthy (non-empty); the first
collected value for a category is normalized as its final_action_date and
the second (if present) as its filing_date, using the bulletin's
month start as the reference date. -/
theorem c2_amended_truthy_collection (g : String → Option Date)
    (r : FetchResult) (month_name : String) (year i : Nat)
    (tables : List (List (List String)))
    (hm : List.findIdx? (fun m => m == (str_lower month_name)) MONTHS =
      some i)
    (hr : r = .resp 200 tables) :
    fetch_bulletin_dates g r month_name year = some
      ⟨opt_parse g ⟨year, i + 1, 1⟩ ((dates_found_eb2 tables)[0]?),
       opt_parse g ⟨year, i + 1, 1⟩ ((dates_found_eb2 tables)[1]?),
       opt_parse g ⟨year, i + 1, 1⟩ ((dates_found_eb3 tables)[0]?),
       opt_parse g ⟨year, i + 1, 1⟩ ((dates_found_eb3 tables)[1]?)⟩ := by
  subst hr
  simp only [fetch_bulletin_dates, hm]
  rw [if_neg (by omega)]
  unfold fetch_from_tables
  rw [assign_two_eq, assign_two_eq]

/-- Witness for C2 amended at one concrete grid, the month "april" and the
year 2025. -/
theorem c2_amended_truthy_collection_witness :
    fetch_bulletin_dates pd_to_datetime_general
        (.resp 200 [[["Category", "INDIA"], ["2nd", "15MAY12"]]])
        "april" 2025 = some
      ⟨opt_parse pd_to_datetime_general ⟨2025, 3 + 1, 1⟩
          ((dates_found_eb2 [[["Category", "INDIA"], ["2nd", "15MAY12"]]])[0]?),
       opt_parse pd_to_datetime_general ⟨2025, 3 + 1, 1⟩
          ((dates_found_eb2 [[["Category", "INDIA"], ["2nd", "15MAY12"]]])[1]?),
       opt_parse pd_to_datetime_general ⟨2025, 3 + 1, 1⟩
          ((dates_found_eb3 [[["Category", "INDIA"], ["2nd", "15MAY12"]]])[0]?),
       opt_parse pd_to_datetime_general ⟨2025, 3 + 1, 1⟩
          ((dates_found_eb3 [[["Category", "INDIA"], ["2nd", "15MAY12"]]])[1]?)⟩ :=
  c2_amended_truthy_collection pd_to_datetime_general _ "april" 2025 3 _
    rfl rfl

/-- The chronological key of the month starts is monotone in the month
counter. -/
theorem date_key_date_of_idx_mono {i j : Nat} (h : i ≤ j) :
    date_key (date_of_idx i) ≤ date_key (date_of_idx j) := by
  unfold date_key date_of_idx
  simp only
  omega

/-- Every generated expected date is the first day of its month. -/
theorem mem_dates_to_check_day {today d : Date}
    (hd : d ∈ dates_to_check today) : d.day = 1 := by
  unfold dates_to_check at hd
  obtain ⟨k, _, rfl⟩ := List.mem_map.1 hd
  rfl

/-- C7 counterexample: on March 1, 2024 — the first day of the month, so
before any day-of-month threshold could have passed — the set of expected
bulletin months nevertheless contains April 2024, the next calendar month,
and April 2024 (not the current month) is its latest candidate; the
horizon of `dates_to_check` has no day-of-month gate at all. -/
theorem c7_counterexample :
    (⟨2024, 3, 1⟩ : Date).day = 1 ∧
    (⟨2024, 4, 1⟩ : Date) ∈ dates_to_check ⟨2024, 3, 1⟩ ∧
    (dates_to_check ⟨2024, 3, 1⟩).getLast? = some ⟨2024, 4, 1⟩ ∧
    (⟨2024, 4, 1⟩ : Date) ≠ current_month_start ⟨2024, 3, 1⟩ := by
  refine ⟨rfl, by decide, by decide, by decide⟩

/-- C7 amended: for every value of today (from the January 2017 epoch on),
the expected months run from January 2017 through the first day of the
next calendar month unconditionally: the next calendar month is always
included as a candidate and is the chronological maximum of the set,
regardless of the day of the month of today; every candidate is a month
start. -/
theorem c7_amended_horizon (today : Date)
    (h : epoch_idx ≤ month_idx today) :
    dates_to_check today ≠ [] ∧
    (dates_to_check today).head? = some ⟨2017, 1, 1⟩ ∧
    date_of_idx (month_idx today + 1) ∈ dates_to_check today ∧
    (∀ d ∈ dates_to_check today,
      date_le d (date_of_idx (month_idx today + 1))) ∧
    (∀ d ∈ dates_to_check today, d.day = 1) := by
  have he : epoch_idx = 24204 := rfl
  have hlen : month_idx today + 2 - epoch_idx =
      (month_idx today + 1 - epoch_idx) + 1 := by omega
  refine ⟨?_, ?_, ?_, ?_, fun d hd => mem_dates_to_check_day hd⟩
  · apply List.ne_nil_of_length_pos
    unfold dates_to_check
    rw [List.length_map, List.length_range]
    omega
  · unfold dates_to_check
    rw [hlen, List.range_succ_eq_map, List.map_cons]
    show some (date_of_idx (epoch_idx + 0)) = _
    norm_num [date_of_idx, epoch_idx]
  · unfold dates_to_check
    refine List.mem_map.2 ⟨month_idx today + 1 - epoch_idx, ?_, ?_⟩
    · exact List.mem_range.2 (by omega)
    · have : epoch_idx + (month_idx today + 1 - epoch_idx) =
        month_idx today + 1 := by omega
      rw [this]
  · intro d hd
    unfold dates_to_check at hd
    obtain ⟨k, hk, rfl⟩ := List.mem_map.1 hd
    have hk' := List.mem_range.1 hk
    exact date_key_date_of_idx_mono (by omega)

/-- Witness for C7 amended at today = March 5, 2024. -/
theorem c7_amended_horizon_witness :
    dates_to_check ⟨2024, 3, 5⟩ ≠ [] ∧
    (dates_to_check ⟨2024, 3, 5⟩).head? = some ⟨2017, 1, 1⟩ ∧
    date_of_idx (month_idx ⟨2024, 3, 5⟩ + 1) ∈ dates_to_check ⟨2024, 3, 5⟩ ∧
    (∀ d ∈ dates_to_check ⟨2024, 3, 5⟩,
      date_le d (date_of_idx (month_idx ⟨2024, 3, 5⟩ + 1))) ∧
    (∀ d ∈ dates_to_check ⟨2024, 3, 5⟩, d.day = 1) :=
  c7_amended_horizon ⟨2024, 3, 5⟩ (by decide)

/-- The bulletin dates of the appended records form a sublist of the
processed missing-month list: each month yields at most one record, in
order. -/
theorem keys_sync_loop_sublist (f : Date → Quad) (cur : Date) :
    ∀ m : List Date, List.Sublist (keys (sync_loop f cur m)) m := by
  intro m
  induction m with
  | nil => exact List.Sublist.refl _
  | cons d rest ih =>
    unfold sync_loop
    by_cases hb : both_fad_absent (f d) = true
    · rw [if_pos hb]
      by_cases hc : date_le cur d
      · rw [if_pos hc]
        exact List.nil_sublist _
      · rw [if_neg hc]
        exact ih.cons d
    · rw [if_neg hb]
      exact ih.cons₂ d

/-- C1 counterexample: a past month whose extraction result carries the
concrete date 2010-01-01 in its EB-2 filing field (while both final-action
fields are Absent) is not appended by the sync loop — the code consults
only the two final-action fields, not all four category date fields, so
"at least one concrete date among the category date fields" does not imply
an append. -/
theorem c1_counterexample :
    (⟨none, some ⟨2010, 1, 1⟩, none, none⟩ : Quad).eb2_dof ≠ none ∧
    date_lt ⟨2020, 5, 1⟩ ⟨2024, 3, 1⟩ ∧
    sync_loop (fun _ => ⟨none, some ⟨2010, 1, 1⟩, none, none⟩) ⟨2024, 3, 1⟩
      [⟨2020, 5, 1⟩] = [] := by
  refine ⟨by decide, by decide, by decide⟩

/-- C1 amended: the per-month decision of the sync loop is driven by the
two final-action results: a month whose two final-action results are both
Absent stops the loop when it is the current or a future candidate month
and is skipped when it is strictly in the past; a month with at least one
concrete final-action result is appended. In particular, for missing
months M1 < M2 < M3 with M3 the current (or a future) candidate, where M1
and M2 extract with a concrete final-action result and M3 extracts with
both final-action results Absent, the loop yields exactly the records of
M1 and M2, does not contain M3, and never consults the extraction of any
month beyond M3 (the result is the same for every extraction function
agreeing on M1, M2 and M3). -/
theorem c1_amended_sync_policy :
    (∀ (f : Date → Quad) (cur d : Date) (rest : List Date),
        both_fad_absent (f d) = true → date_le cur d →
        sync_loop f cur (d :: rest) = []) ∧
    (∀ (f : Date → Quad) (cur d : Date) (rest : List Date),
        both_fad_absent (f d) = true → ¬ date_le cur d →
        sync_loop f cur (d :: rest) = sync_loop f cur rest) ∧
    (∀ (f : Date → Quad) (cur d : Date) (rest : List Date),
        both_fad_absent (f d) = false →
        sync_loop f cur (d :: rest) =
          mk_row d (f d) :: sync_loop f cur rest) ∧
    (∀ (f fx : Date → Quad) (cur M1 M2 M3 : Date) (rest : List Date),
        date_lt M1 M2 → date_lt M2 M3 →
        both_fad_absent (f M1) = false → both_fad_absent (f M2) = false →
        both_fad_absent (f M3) = true → date_le cur M3 →
        fx M1 = f M1 → fx M2 = f M2 → fx M3 = f M3 →
        sync_loop fx cur (M1 :: M2 :: M3 :: rest) =
          [mk_row M1 (f M1), mk_row M2 (f M2)] ∧
        M3 ∉ keys (sync_loop fx cur (M1 :: M2 :: M3 :: rest))) := by
  refine ⟨?_, ?_, ?_, ?_⟩
  · intro f cur d rest hb hc
    simp [sync_loop, hb, hc]
  · intro f cur d rest hb hc
    simp [sync_loop, hb, hc]
  · intro f cur d rest hb
    simp [sync_loop, hb]
  · intro f fx cur M1 M2 M3 rest h12 h23 hb1 hb2 hb3 hc ha1 ha2 ha3
    have hmain : sync_loop fx cur (M1 :: M2 :: M3 :: rest) =
        [mk_row M1 (f M1), mk_row M2 (f M2)] := by
      simp [sync_loop, ha1, ha2, ha3, hb1, hb2, hb3, hc]
    refine ⟨hmain, ?_⟩
    rw [hmain]
    intro hmem
    unfold keys at hmem
    rw [List.map_cons, List.map_cons, List.map_nil] at hmem
    rcases List.mem_cons.1 hmem with h | h
    · have : date_key M3 = date_key M1 := by rw [h]; rfl
      unfold date_lt at h12 h23
      omega
    · rcases List.mem_cons.1 h with h' | h'
      · have : date_key M3 = date_key M2 := by rw [h']; rfl
        unfold date_lt at h23
        omega
      · exact absurd h' (List.not_mem_nil _)

/-- Extraction outcomes of the concrete C1 scenario: January and February
2024 carry a concrete EB-2 final-action date, every other month is
all-Absent. -/
def f_scenario : Date → Quad := fun d =>
  if d = ⟨2024, 1, 1⟩ ∨ d = ⟨2024, 2, 1⟩
    then ⟨some ⟨2010, 1, 1⟩, none, none, none⟩ else all_absent

/-- A variant of the scenario outcomes differing only on September 2024, a
month beyond the stopping point. -/
def fx_scenario : Date → Quad := fun d =>
  if d = ⟨2024, 9, 1⟩ then ⟨some ⟨2011, 1, 1⟩, none, none, none⟩
  else f_scenario d

/-- Witness for C1 amended: a concrete three-month scenario followed by a
later month on which the two extraction functions disagree. -/
theorem c1_amended_sync_policy_witness :
    sync_loop fx_scenario ⟨2024, 3, 1⟩
        [⟨2024, 1, 1⟩, ⟨2024, 2, 1⟩, ⟨2024, 3, 1⟩, ⟨2024, 9, 1⟩] =
      [mk_row ⟨2024, 1, 1⟩ (f_scenario ⟨2024, 1, 1⟩),
       mk_row ⟨2024, 2, 1⟩ (f_scenario ⟨2024, 2, 1⟩)] ∧
    (⟨2024, 3, 1⟩ : Date) ∉ keys (sync_loop fx_scenario ⟨2024, 3, 1⟩
        [⟨2024, 1, 1⟩, ⟨2024, 2, 1⟩, ⟨2024, 3, 1⟩, ⟨2024, 9, 1⟩]) :=
  c1_amended_sync_policy.2.2.2 f_scenario fx_scenario
    ⟨2024, 3, 1⟩ ⟨2024, 1, 1⟩ ⟨2024, 2, 1⟩ ⟨2024, 3, 1⟩ [⟨2024, 9, 1⟩]
    (by decide) (by decide) (by decide) (by decide) (by decide) (by decide)
    (by decide) (by decide) (by decide)

/-- The month-start constructor is injective on month counters. -/
theorem date_of_idx_inj {i j : Nat} (h : date_of_idx i = date_of_idx j) :
    i = j := by
  unfold date_of_idx at h
  have h1 : i / 12 = j / 12 := congrArg Date.year h
  have h2 : i % 12 + 1 = j % 12 + 1 := congrArg Date.month h
  omega

/-- The expected-month range never repeats a month. -/
theorem nodup_dates_to_check (today : Date) :
    (dates_to_check today).Nodup := by
  unfold dates_to_check
  refine List.Nodup.map ?_ (List.nodup_range _)
  intro a b hab
  have := date_of_idx_inj hab
  omega

/-- Every record produced by the sync loop carries the date of one of the
processed missing months. -/
theorem bulletin_date_mem_of_mem_sync_loop {f : Date → Quad} {cur : Date}
    {m : List Date} {r : Row} (hr : r ∈ sync_loop f cur m) :
    r.bulletin_date ∈ m :=
  (keys_sync_loop_sublist f cur m).subset
    (List.mem_map_of_mem (fun x => x.bulletin_date) hr)

/-- Unfolding equation of the sync engine, stated with the branch condition
explicit. -/
theorem init_or_update_db_def (f : Date → Quad) (today : Date)
    (df : List Row) :
    init_or_update_db f today df =
      if sync_loop f (current_month_start today)
          (missing_dates df (dates_to_check today)) = [] then (df, false)
      else (List.insertionSort row_le (df ++ sync_loop f
        (current_month_start today)
        (missing_dates df (dates_to_check today))), true) := rfl

/-- C8: after every sync invocation on a well-formed series (month-start
keys, no duplicate key, sorted ascending), the resulting series again has
every bulletin date on the first calendar day of its month, contains at
most one record per bulletin date, is sorted ascending by bulletin date,
and carries through every record of the input series unchanged (only
months absent from the series are fetched). -/
theorem c8_invariants (f : Date → Quad) (today : Date) (df : List Row)
    (h1 : ∀ r ∈ df, r.bulletin_date.day = 1)
    (h2 : (keys df).Nodup)
    (h3 : List.Sorted row_le df) :
    (∀ r ∈ (init_or_update_db f today df).1, r.bulletin_date.day = 1) ∧
    (keys (init_or_update_db f today df).1).Nodup ∧
    List.Sorted row_le (init_or_update_db f today df).1 ∧
    (∀ r ∈ df, r ∈ (init_or_update_db f today df).1) := by
  rw [init_or_update_db_def]
  by_cases hrows : sync_loop f (current_month_start today)
      (missing_dates df (dates_to_check today)) = []
  · rw [if_pos hrows]
    exact ⟨h1, h2, h3, fun r hr => hr⟩
  · rw [if_neg hrows]
    have hperm : List.Perm
        (List.insertionSort row_le (df ++ sync_loop f
          (current_month_start today)
          (missing_dates df (dates_to_check today))))
        (df ++ sync_loop f (current_month_start today)
          (missing_dates df (dates_to_check today))) :=
      List.perm_insertionSort _ _
    have hmemN : ∀ x ∈ sync_loop f (current_month_start today)
        (missing_dates df (dates_to_check today)),
        x.bulletin_date ∈ missing_dates df (dates_to_check today) :=
      fun x hx => bulletin_date_mem_of_mem_sync_loop hx
    refine ⟨?_, ?_, ?_, ?_⟩
    · intro x hx
      rcases List.mem_append.1 (hperm.mem_iff.1 hx) with h | h
      · exact h1 x h
      · have hm := hmemN x h
        unfold missing_dates at hm
        exact mem_dates_to_check_day (List.mem_of_mem_filter hm)
    · have hkp : List.Perm
          (keys (List.insertionSort row_le (df ++ sync_loop f
            (current_month_start today)
            (missing_dates df (dates_to_check today)))))
          (keys (df ++ sync_loop f (current_month_start today)
            (missing_dates df (dates_to_check today)))) := hperm.map _
      rw [hkp.nodup_iff]
      unfold keys
      rw [List.map_append]
      refine List.Nodup.append h2 ?_ ?_
      · have hsub := keys_sync_loop_sublist f (current_month_start today)
          (missing_dates df (dates_to_check today))
        unfold keys at hsub
        unfold missing_dates at hsub
        exact ((nodup_dates_to_check today).filter _).sublist hsub
      · intro a ha hb
        obtain ⟨x, hx, rfl⟩ := List.mem_map.1 hb
        have hm := hmemN x hx
        unfold missing_dates at hm
        have hpred := (List.mem_filter.1 hm).2
        rw [Bool.not_eq_true'] at hpred
        rw [List.any_eq_false] at hpred
        obtain ⟨y, hy, hyx⟩ := List.mem_map.1 ha
        have := hpred y hy
        rw [hyx] at this
        simp at this
    · exact List.sorted_insertionSort row_le _
    · intro x hx
      exact hperm.mem_iff.2 (List.mem_append_left _ hx)

/-- Witness for C8 on the empty input series with today = February 1,
2017 and the everywhere-Absent extraction outcome. -/
theorem c8_invariants_witness :
    (∀ r ∈ (init_or_update_db (fun _ => all_absent) ⟨2017, 2, 1⟩ []).1,
      r.bulletin_date.day = 1) ∧
    (keys (init_or_update_db (fun _ => all_absent) ⟨2017, 2, 1⟩ []).1).Nodup ∧
    List.Sorted row_le
      (init_or_update_db (fun _ => all_absent) ⟨2017, 2, 1⟩ []).1 ∧
    (∀ r ∈ ([] : List Row),
      r ∈ (init_or_update_db (fun _ => all_absent) ⟨2017, 2, 1⟩ []).1) :=
  c8_invariants (fun _ => all_absent) ⟨2017, 2, 1⟩ []
    (by simp) (by simp [keys]) List.sorted_nil

/-- A permutation preserves the `any` test. -/
theorem any_perm {α : Type} {l l2 : List α} (h : List.Perm l l2)
    (p : α → Bool) : l.any p = l2.any p := by
  cases hb : l2.any p with
  | true =>
    rw [List.any_eq_true] at hb ⊢
    obtain ⟨x, hx, hpx⟩ := hb
    exact ⟨x, h.mem_iff.2 hx, hpx⟩
  | false =>
    rw [List.any_eq_false] at hb ⊢
    intro x hx
    exact hb x (h.mem_iff.1 hx)

/-- Re-running the scraping loop on the months it just declined to append
(with the same extraction outcomes and the same current month) appends
nothing: every such month is either skipped again or hit again as the
stopping month. -/
theorem sync_loop_refilter (f : Date → Quad) (cur : Date) :
    ∀ m : List Date, m.Nodup →
      sync_loop f cur (m.filter (fun d =>
        !((sync_loop f cur m).any (fun r => r.bulletin_date == d)))) =
        [] := by
  intro m
  induction m with
  | nil => intro _; rfl
  | cons d rest ih =>
    intro hnd
    rw [List.nodup_cons] at hnd
    obtain ⟨hd, hr⟩ := hnd
    by_cases hb : both_fad_absent (f d) = true
    · by_cases hc : date_le cur d
      · have hR : sync_loop f cur (d :: rest) = [] := by
          simp [sync_loop, hb, hc]
        rw [hR]
        simp only [List.any_nil, Bool.not_false, List.filter_true]
        exact hR
      · have hR : sync_loop f cur (d :: rest) = sync_loop f cur rest := by
          simp [sync_loop, hb, hc]
        rw [hR]
        rw [List.filter_cons]
        have hnotin : ((sync_loop f cur rest).any
            (fun r => r.bulletin_date == d)) = false := by
          rw [List.any_eq_false]
          intro r hrm
          have hmem : r.bulletin_date ∈ rest :=
            bulletin_date_mem_of_mem_sync_loop hrm
          intro hbeq
          rw [beq_iff_eq] at hbeq
          rw [hbeq] at hmem
          exact hd hmem
        rw [hnotin]
        simp only [Bool.not_false, if_pos]
        have hstep : sync_loop f cur (d :: rest.filter (fun x =>
            !((sync_loop f cur rest).any (fun r => r.bulletin_date == x))))
            = sync_loop f cur (rest.filter (fun x =>
            !((sync_loop f cur rest).any
              (fun r => r.bulletin_date == x)))) := by
          simp [sync_loop, hb, hc]
        rw [hstep]
        exact ih hr
    · rw [Bool.not_eq_true] at hb
      have hR : sync_loop f cur (d :: rest) =
          mk_row d (f d) :: sync_loop f cur rest := by
        simp [sync_loop, hb]
      rw [hR]
      rw [List.filter_cons]
      have hdhit : ((mk_row d (f d) :: sync_loop f cur rest).any
          (fun r => r.bulletin_date == d)) = true := by
        rw [List.any_cons]
        have : (mk_row d (f d)).bulletin_date == d := by
          rw [beq_iff_eq]
          rfl
        rw [this]
        rfl
      rw [hdhit]
      simp only [Bool.not_true, if_neg, Bool.false_eq_true,
        not_false_iff]
      have hcongr : rest.filter (fun x =>
          !((mk_row d (f d) :: sync_loop f cur rest).any
            (fun r => r.bulletin_date == x))) =
          rest.filter (fun x => !((sync_loop f cur rest).any
            (fun r => r.bulletin_date == x))) := by
        apply List.filter_congr
        intro x hx
        rw [List.any_cons]
        have hne : ((mk_row d (f d)).bulletin_date == x) = false := by
          rw [beq_eq_false_iff_ne]
          show d ≠ x
          intro heq
          rw [heq] at hd
          exact hd hx
        rw [hne]
        rfl
      rw [hcongr]
      exact ih hr

/-- C9: sync is idempotent: for every stored series, extraction outcome and
value of today, running sync a second time on the result of a first run (no
new publications: the extraction outcomes and the clock are unchanged)
yields the identical series, no change to the persisted state, and no
refresh signal. -/
theorem c9_idempotent (f : Date → Quad) (today : Date) (df : List Row) :
    init_or_update_db f today (init_or_update_db f today df).1 =
      ((init_or_update_db f today df).1, false) := by
  rw [init_or_update_db_def f today df]
  by_cases hrows : sync_loop f (current_month_start today)
      (missing_dates df (dates_to_check today)) = []
  · rw [if_pos hrows]
    show init_or_update_db f today df = (df, false)
    rw [init_or_update_db_def, if_pos hrows]
  · rw [if_neg hrows]
    show init_or_update_db f today
        (List.insertionSort row_le (df ++ sync_loop f
          (current_month_start today)
          (missing_dates df (dates_to_check today)))) =
      (List.insertionSort row_le (df ++ sync_loop f
        (current_month_start today)
        (missing_dates df (dates_to_check today))), false)
    have hm2 : missing_dates
        (List.insertionSort row_le (df ++ sync_loop f
          (current_month_start today)
          (missing_dates df (dates_to_check today))))
        (dates_to_check today) =
        (missing_dates df (dates_to_check today)).filter (fun x =>
          !((sync_loop f (current_month_start today)
            (missing_dates df (dates_to_check today))).any
            (fun r => r.bulletin_date == x))) := by
      unfold missing_dates
      rw [List.filter_filter]
      apply List.filter_congr
      intro x _
      rw [any_perm (List.perm_insertionSort row_le _) _, List.any_append,
        Bool.not_or, Bool.and_comm]
    have hstop : sync_loop f (current_month_start today)
        (missing_dates
          (List.insertionSort row_le (df ++ sync_loop f
            (current_month_start today)
            (missing_dates df (dates_to_check today))))
          (dates_to_check today)) = [] := by
      rw [hm2]
      apply sync_loop_refilter
      unfold missing_dates
      exact (nodup_dates_to_check today).filter _
    rw [init_or_update_db_def, if_pos hstop]

end VisaTracker
